import Mathlib

/-!
# Verification of the `enrollClass` transaction workflow

Shallow embedding of `src/server/graphql/mutation/enroll-class.ts`:
the class-enrollment coordinator that validates a request, opens a
database transaction, applies a promotion, consumes account credit,
issues a referral credit, persists enrollment rows, captures an
external payment, persists a transaction record, commits, and emits a
domain event — rolling everything back on any failure inside the
transaction.

Modelling conventions:

* The sequelize transaction is modelled by a *pending* database value:
  all writes made with `txOpts` mutate the pending copy; the commit
  installs the pending copy as the new database; a rollback discards it
  (the original database value is returned unchanged).
* External collaborators and repository code that is not under `src/`
  (`getPromotionIfQualified`, the pricing helpers, the braintree `sale`
  adapter, the event bus, the derived account balance) are modelled as
  oracle fields of an `Env` record, or as definitions marked
  `Modelled from the spec:`.
* Every database write that can fail at the store level is guarded by
  an oracle of type `Except Err Unit` so that a failure can be injected
  at any step of the transaction.
* Monetary amounts are integers (cents), ids are naturals.
-/

namespace EnrollClass

/-- A course: `level` orders the classes of a track, `isTrial` and
`isRegular` classify it (fields of `CourseModel` used by the mutation). -/
structure Course where
  id : Nat
  name : String
  level : Int
  isTrial : Bool
  isRegular : Bool
deriving DecidableEq, Repr

/-- A class row (`ClassModel`) with its included course. -/
structure Klass where
  id : Nat
  course : Course
deriving DecidableEq, Repr

/-- A parent account: `paid` flips on the first completed regular-course
purchase; `refererId` is the referring account, when any. -/
structure Account where
  id : Nat
  firstName : String
  paid : Bool
  refererId : Option Nat
deriving DecidableEq, Repr

/-- A student row; `parentId` ties it to the owning account. -/
structure Student where
  id : Nat
  parentId : Nat
  name : String
deriving DecidableEq, Repr

/-- A promotion row: `counts` is the usage counter incremented inside the
enrollment transaction. -/
structure Promotion where
  id : Nat
  code : String
  counts : Nat
deriving DecidableEq, Repr

/-- Ledger entry kind (`CreditType` from cl-common). -/
inductive CreditType where
  | Purchase
  | Referral
deriving DecidableEq, Repr

/-- An immutable credit-ledger row: signed cents, owner, kind.
(The free-text `details` metadata of `CreditModel` is not modelled;
no claim mentions it.) -/
structure CreditRow where
  id : Nat
  userId : Nat
  cents : Int
  type : CreditType
deriving DecidableEq, Repr

/-- An enrollment row linking a student to a class, with attribution and
references to the promotion/credit used to price it. -/
structure Enrollment where
  studentId : Nat
  classId : Nat
  source : String
  campaign : String
  promotionId : Option Nat
  creditId : Option Nat
deriving DecidableEq, Repr

deriving instance DecidableEq for Except

/-- A payment-transaction row (`TransactionModel`) holding the gateway
details, linked to the enrollments it paid for. -/
structure TxRecord where
  details : String
  enrollments : List Enrollment
deriving DecidableEq, Repr

/-- The persistent store. `nextCreditId` models the autoincrement key of
the credit table (enrollments reference the credit row used). -/
structure DB where
  students : List Student
  accounts : List Account
  classes : List Klass
  promotions : List Promotion
  credits : List CreditRow
  enrollments : List Enrollment
  txRecords : List TxRecord
  nextCreditId : Nat
deriving DecidableEq, Repr

/-- Error taxonomy of the mutation (Boom errors plus store/gateway
failures). -/
inductive Err where
  | unauthorized : String → Err
  | badRequest : String → Err
  | notFound : String → Err
  | paymentFailure : String → Err
  | storeFailure : String → Err
  | emitFailure : String → Err
deriving DecidableEq, Repr

/-- The request context: `userId` from the auth middleware, utm fields
from the session. -/
structure Ctx where
  userId : Option Nat
  utmSource : String
  utmCampaign : String
deriving DecidableEq, Repr

/-- The `MutationArgs.EnrollClass` arguments. -/
structure Args where
  classIds : List Nat
  studentId : Nat
  credit : Int
  promotionId : Option Nat
  paymentMethodNonce : String
  wholeSeries : Bool
deriving DecidableEq, Repr

/-- The environment of external collaborators and injectable store
outcomes.

* `getPromotionIfQualified` — modelled from the spec: the helper in
  `graphql/helper/promo-helper` is not under `src/`; the spec says it
  returns the Promotion entity if it exists and is eligible for the
  account and course, or a rejection (`none`), and may itself fail.
* `promoRule` — modelled from the spec: the discount amount of
  `applyPromo` from `shared/pricing` (not under `src/`) depends on the
  promotion and on whether the purchase is a bundle or a whole-series
  purchase.
* `getTotalPriceInCents` — modelled from the spec: the pricing helper
  from `shared/pricing` is not under `src/`; a pure deterministic
  function of the classes and the `wholeSeries` flag.
* `sale` — the braintree adapter: amount in major units, payment nonce,
  idempotency key; returns gateway details or fails.
* `referralBonus` — the fixed `ReferralCredits.purchase` constant from
  cl-common.
* `emit` — the event bus (`emitEnrollClassEvent`).
* the `Except Err Unit` fields inject store-level outcomes for each
  write made inside the transaction. -/
structure Env where
  getPromotionIfQualified : Nat → Account → Course → Except Err (Option Promotion)
  promoRule : Promotion → Bool → Bool → Int
  getTotalPriceInCents : List Klass → Bool → Int
  sale : Int → String → Nat → Except Err String
  referralBonus : Int
  emit : List Enrollment → Except Err Unit
  incrementCountsOk : Except Err Unit
  creditCreateOk : Except Err Unit
  accountUpdateOk : Except Err Unit
  referralCreateOk : Except Err Unit
  bulkCreateOk : Except Err Unit
  txCreateOk : Except Err Unit
  addEnrollmentsOk : Except Err Unit

/-- Modelled from the spec: `getBalanceInCents` (not under `src/`)
derives the account balance from the signed cents of its credit-ledger
entries. -/
def balanceOf (db : DB) (uid : Nat) : Int :=
  (db.credits.filter (fun c => decide (c.userId = uid))).foldl
    (fun s c => s + c.cents) 0

/-- Modelled from the spec: `applyPromo` from `shared/pricing` is not
under `src/`. The spec says the promotion reduces the price by its rule
(which differs between bundle and whole-series purchases) and that a
step that would drive the price below zero clamps at zero. -/
def applyPromo (rule : Promotion → Bool → Bool → Int) (price : Int)
    (promo : Promotion) (isBundle wholeSeries : Bool) : Int :=
  max 0 (price - rule promo isBundle wholeSeries)

/-- The result of applying credit: `used` cents consumed, `result`ing
price. -/
structure AppliedCredit where
  used : Int
  result : Int
deriving DecidableEq, Repr

/-- Modelled from the spec: `applyCredit` from `shared/pricing` is not
under `src/`. The spec says: consumed = min(requested, price); new
price = price − consumed. -/
def applyCredit (price credit : Int) : AppliedCredit :=
  { used := min credit price, result := price - min credit price }

/-- The data loaded and checked by the validation phase (before the
transaction opens): caller id, student row, parent account, resolved
classes. -/
structure Loaded where
  uid : Nat
  student : Student
  account : Account
  klasses : List Klass
deriving DecidableEq, Repr

/-- The validation phase of `enrollClass` (everything before
`sequelize.transaction()`): authentication, student lookup scoped to
the caller's account, class resolution, non-empty check, and the
credit-balance check. -/
def validate (ctx : Ctx) (args : Args) (db : DB) : Except Err Loaded :=
  match ctx.userId with
  | none => .error (.unauthorized "You must login first")
  | some uid =>
    match db.students.find? (fun s => decide (s.id = args.studentId ∧ s.parentId = uid)) with
    | none => .error (.notFound "student not found")
    | some student =>
      match db.accounts.find? (fun a => decide (a.id = uid)) with
      | none => .error (.notFound "account not found")
      | some account =>
        if (db.classes.filter (fun k => args.classIds.contains k.id)).isEmpty then
          .error (.badRequest "invalid classIds")
        else if args.credit > 0 ∧ args.credit > balanceOf db uid then
          .error (.badRequest "you do not have enough credit")
        else .ok { uid := uid, student := student, account := account,
                   klasses := db.classes.filter (fun k => args.classIds.contains k.id) }

/-- Picks the class with the lower course level (the loop body of the
main-class search). -/
def pickLower (m k : Klass) : Klass :=
  if k.course.level < m.course.level then k else m

/-- The main-class selection: start from the first class and keep any
class with a strictly lower course level (lines 115–123 of the source). -/
def mainClassOf : List Klass → Option Klass
  | [] => none
  | k :: rest => some (rest.foldl pickLower k)

/-- `isBundle`: more than one class selected and not a whole-series
purchase (line 130 of the source). -/
def isBundleOf (ks : List Klass) (wholeSeries : Bool) : Bool :=
  decide (1 < ks.length) && !wholeSeries

/-- Mutable state of the transaction body: the pending database copy,
the running price, and the coordinator's local variables. -/
structure TxSt where
  pending : DB
  price : Int
  appliedPromo : Option Promotion
  usedCredit : Option CreditRow
  enrollments : List Enrollment
deriving DecidableEq, Repr

/-- `appliedPromo.increment('counts', txOpts)`: bump the usage counter
of the promotion row in the pending database. -/
def incPromoCounts (db : DB) (pid : Nat) : DB :=
  let ps := db.promotions.map (fun p => if p.id = pid then { p with counts := p.counts + 1 } else p)
  { db with promotions := ps }

/-- `CreditModel.create(..., txOpts)`: append a ledger row to the
pending database and bump the autoincrement key. -/
def addCredit (db : DB) (row : CreditRow) : DB :=
  { db with credits := db.credits ++ [row], nextCreditId := db.nextCreditId + 1 }

/-- `student.parent.update({ paid: true }, txOpts)`: set the `paid`
flag on the account row in the pending database. -/
def setPaid (db : DB) (uid : Nat) : DB :=
  let as := db.accounts.map (fun a => if a.id = uid then { a with paid := true } else a)
  { db with accounts := as }

/-- Promotion step (lines 142–160): when the price is positive and a
promotion id was supplied, look it up; a missing/ineligible promotion is
a hard `badRequest`; an eligible one has its counter incremented in the
pending database and its discount applied to the price. -/
def promoStage (env : Env) (args : Args) (account : Account) (mainCourse : Course)
    (isBundle : Bool) (st : TxSt) : Except Err TxSt :=
  if st.price > 0 then
    match args.promotionId with
    | none => .ok st
    | some pid =>
      match env.getPromotionIfQualified pid account mainCourse with
      | .error e => .error e
      | .ok none => .error (.badRequest ("promotion " ++ toString pid ++ " is not valid"))
      | .ok (some promo) =>
        match env.incrementCountsOk with
        | .error e => .error e
        | .ok _ =>
          .ok { st with
                pending := incPromoCounts st.pending promo.id,
                price := applyPromo env.promoRule st.price promo isBundle args.wholeSeries,
                appliedPromo := some promo }
  else .ok st

/-- Credit step (lines 162–186): when the price and the requested credit
are both positive, consume `min(credit, price)` and record a negative
Purchase-type ledger row in the pending database. -/
def creditStage (env : Env) (uid : Nat) (credit : Int) (st : TxSt) : Except Err TxSt :=
  if st.price > 0 ∧ credit > 0 then
    match env.creditCreateOk with
    | .error e => .error e
    | .ok _ =>
      .ok { st with
            pending := (addCredit st.pending
              { id := st.pending.nextCreditId, userId := uid,
                cents := -(applyCredit st.price credit).used, type := CreditType.Purchase }),
            price := (applyCredit st.price credit).result,
            usedCredit := (some
              { id := st.pending.nextCreditId, userId := uid,
                cents := -(applyCredit st.price credit).used, type := CreditType.Purchase }) }
  else .ok st

/-- Referral step (lines 188–211): when the main course is regular and
the account has not yet paid, flip `paid`; when additionally the
remaining price is positive and the account has a referer, grant the
fixed referral bonus to the referring account. -/
def referralStage (env : Env) (account : Account) (mainCourse : Course)
    (st : TxSt) : Except Err TxSt :=
  if mainCourse.isRegular = true ∧ account.paid = false then
    match env.accountUpdateOk with
    | .error e => .error e
    | .ok _ =>
      if st.price > 0 then
        match account.refererId with
        | some rid =>
          match env.referralCreateOk with
          | .error e => .error e
          | .ok _ =>
            .ok { st with pending := (addCredit (setPaid st.pending account.id)
                    { id := (setPaid st.pending account.id).nextCreditId, userId := rid,
                      cents := env.referralBonus, type := CreditType.Referral }) }
        | none => .ok { st with pending := setPaid st.pending account.id }
      else .ok { st with pending := setPaid st.pending account.id }
  else .ok st

/-- One enrollment row per resolved class (the `bulkCreate` payload,
lines 213–223). -/
def mkEnrollment (ctx : Ctx) (st : TxSt) (studentId : Nat) (k : Klass) : Enrollment :=
  { studentId := studentId, classId := k.id,
    source := ctx.utmSource, campaign := ctx.utmCampaign,
    promotionId := st.appliedPromo.map (fun p => p.id),
    creditId := st.usedCredit.map (fun c => c.id) }

/-- Persistence step: `EnrollmentModel.bulkCreate` of one row per
resolved class into the pending database. -/
def persistStage (env : Env) (ctx : Ctx) (studentId : Nat) (klasses : List Klass)
    (st : TxSt) : Except Err TxSt :=
  match env.bulkCreateOk with
  | .error e => .error e
  | .ok _ =>
    .ok { st with
          pending := { st.pending with
            enrollments := st.pending.enrollments ++ klasses.map (mkEnrollment ctx st studentId) },
          enrollments := klasses.map (mkEnrollment ctx st studentId) }

/-- Charge step (lines 225–242): only when the remaining price is
positive, call the gateway (`sale(priceInCents / 100, nonce, key)`),
then persist the transaction record and link the enrollments. The
second component logs the cents amount of each gateway invocation
(the source converts to major units at the call). -/
def chargeStage (env : Env) (args : Args) (st : TxSt) :
    (Except Err TxSt) × List Int :=
  if st.price > 0 then
    match env.sale (st.price / 100) args.paymentMethodNonce
        (args.classIds.headD 0 + args.studentId) with
    | .error e => (.error e, [st.price])
    | .ok details =>
      match env.txCreateOk with
      | .error e => (.error e, [st.price])
      | .ok _ =>
        match env.addEnrollmentsOk with
        | .error e => (.error e, [st.price])
        | .ok _ =>
          (.ok { st with
                 pending := { st.pending with
                   txRecords := st.pending.txRecords
                     ++ [{ details := details, enrollments := st.enrollments }] } },
           [st.price])
  else (.ok st, [])

/-- The state at the opening of the transaction: the pending database is
the current database, the running price is the pricing calculator's
total for the resolved classes under the `wholeSeries` flag. -/
def initSt (env : Env) (args : Args) (L : Loaded) (db : DB) : TxSt :=
  { pending := db,
    price := env.getTotalPriceInCents L.klasses args.wholeSeries,
    appliedPromo := none, usedCredit := none, enrollments := [] }

/-- The transaction body (everything between `sequelize.transaction()`
and `tx.commit()`): main-class selection, pricing, then the five stages
in source order. The second component is the gateway-call log. -/
def enrollTxPhase (env : Env) (ctx : Ctx) (args : Args) (L : Loaded) (db : DB) :
    (Except Err TxSt) × List Int :=
  match mainClassOf L.klasses with
  | none => (.error (.badRequest "invalid classIds"), [])
  | some mainKlass =>
    match promoStage env args L.account mainKlass.course
        (isBundleOf L.klasses args.wholeSeries) (initSt env args L db) with
    | .error e => (.error e, [])
    | .ok st1 =>
      match creditStage env L.uid args.credit st1 with
      | .error e => (.error e, [])
      | .ok st2 =>
        match referralStage env L.account mainKlass.course st2 with
        | .error e => (.error e, [])
        | .ok st3 =>
          match persistStage env ctx L.student.id L.klasses st3 with
          | .error e => (.error e, [])
          | .ok st4 => chargeStage env args st4

/-- Observable outcome of one `enrollClass` request: the GraphQL result,
the database afterwards, the events published to the bus, and the
gateway-call log (external calls are not rolled back). -/
structure Outcome where
  result : Except Err (List Enrollment)
  db : DB
  events : List (List Enrollment)
  saleLog : List Int
deriving DecidableEq, Repr

/-- The `enrollClass` mutation: validation, then the transaction body;
an error inside the body rolls back (the database is returned
unchanged) and is re-raised; on success the pending database is
committed and the event is emitted afterwards — an emission failure is
re-raised but does not undo the commit. -/
def enrollClass (env : Env) (ctx : Ctx) (args : Args) (db : DB) : Outcome :=
  match validate ctx args db with
  | .error e => { result := .error e, db := db, events := [], saleLog := [] }
  | .ok L =>
    match enrollTxPhase env ctx args L db with
    | (.error e, log) => { result := .error e, db := db, events := [], saleLog := log }
    | (.ok st, log) =>
      match env.emit st.enrollments with
      | .error e => { result := .error e, db := st.pending, events := [], saleLog := log }
      | .ok _ =>
        { result := .ok st.enrollments, db := st.pending,
          events := [st.enrollments], saleLog := log }

/-! ## Concrete fixtures for witnesses and counterexamples -/

/-- A regular level-1 course used by the concrete scenarios. -/
def courseA : Course :=
  { id := 10, name := "Scratch Ninja", level := 1, isTrial := false, isRegular := true }

/-- A regular level-2 course (the add-on in multi-class scenarios). -/
def courseB : Course :=
  { id := 11, name := "Scratch Ninja 2", level := 2, isTrial := false, isRegular := true }

/-- A class of the level-1 course. -/
def klassA : Klass := { id := 100, course := courseA }

/-- A class of the level-2 course. -/
def klassB : Klass := { id := 101, course := courseB }

/-- An unpaid account with no referer. -/
def acctNoRef : Account := { id := 1, firstName := "Pat", paid := false, refererId := none }

/-- A student of account 1. -/
def student1 : Student := { id := 7, parentId := 1, name := "Kid" }

/-- A promotion row with three prior uses. -/
def promo1 : Promotion := { id := 50, code := "WELCOME", counts := 3 }

/-- A store with one student, one account (balance 1000¢ via one referral
ledger row), two classes, one promotion. -/
def baseDB : DB :=
  { students := [student1], accounts := [acctNoRef], classes := [klassA, klassB],
    promotions := [promo1],
    credits := [{ id := 0, userId := 1, cents := 1000, type := CreditType.Referral }],
    enrollments := [], txRecords := [], nextCreditId := 1 }

/-- An authenticated request context. -/
def ctx1 : Ctx := { userId := some 1, utmSource := "ads", utmCampaign := "fall" }

/-- An environment where every collaborator succeeds: promotion 50
qualifies with a 500¢ discount, total price 5000¢, the gateway accepts,
referral bonus 2000¢. -/
def envOK : Env :=
  { getPromotionIfQualified := fun pid _ _ => if pid = 50 then .ok (some promo1) else .ok none,
    promoRule := fun _ _ _ => 500,
    getTotalPriceInCents := fun _ _ => 5000,
    sale := fun _ _ _ => .ok "gw-ok",
    referralBonus := 2000,
    emit := fun _ => .ok (),
    incrementCountsOk := .ok (),
    creditCreateOk := .ok (),
    accountUpdateOk := .ok (),
    referralCreateOk := .ok (),
    bulkCreateOk := .ok (),
    txCreateOk := .ok (),
    addEnrollmentsOk := .ok () }

/-- Arguments: enroll student 7 in class 100, no credit, no promotion. -/
def argsBase : Args :=
  { classIds := [100], studentId := 7, credit := 0, promotionId := none,
    paymentMethodNonce := "nonce", wholeSeries := false }

/-- A credit row of Referral type. -/
def isReferralRow (c : CreditRow) : Bool := decide (c.type = CreditType.Referral)

/-- A credit row of Purchase type. -/
def isPurchaseRow (c : CreditRow) : Bool := decide (c.type = CreditType.Purchase)

/-! ## Additional concrete fixtures -/

/-- An unauthenticated request context. -/
def ctxNone : Ctx := { userId := none, utmSource := "ads", utmCampaign := "fall" }

/-- The data loaded by a successful validation of `argsBase` against
`baseDB`. -/
def loaded1 : Loaded :=
  { uid := 1, student := student1, account := acctNoRef, klasses := [klassA] }

/-- `envOK` with a gateway that declines the charge. -/
def envSaleFail : Env :=
  { envOK with sale := fun _ _ _ => .error (.paymentFailure "declined") }

/-- `envOK` with an event bus that fails. -/
def envEmitFail : Env :=
  { envOK with emit := fun _ => .error (.emitFailure "bus down") }

/-- `envOK` with a pricing calculator returning zero. -/
def envPrice0 : Env :=
  { envOK with getTotalPriceInCents := fun _ _ => 0 }

/-- The enrollment row created in the `argsBase`/`ctx1` scenarios. -/
def enr1 : Enrollment :=
  { studentId := 7, classId := 100, source := "ads", campaign := "fall",
    promotionId := none, creditId := none }

/-- The committed store of the `argsBase`/`envOK` scenario. -/
def dbAfter1 : DB :=
  { baseDB with
    accounts := [{ acctNoRef with paid := true }],
    enrollments := [enr1],
    txRecords := [{ details := "gw-ok", enrollments := [enr1] }] }

/-- The final transaction state of the `argsBase` scenario (price 5000,
no promotion, no credit). -/
def stBase : TxSt :=
  { pending := dbAfter1, price := 5000, appliedPromo := none, usedCredit := none,
    enrollments := [enr1] }

/-- Arguments with a negative requested credit. -/
def argsNeg : Args := { argsBase with credit := -5 }

/-- Arguments listing one resolvable class id (100) and one that
resolves to nothing (999). -/
def args9 : Args := { argsBase with classIds := [100, 999] }

/-- The committed store of the zero-price scenario: enrollment created,
`paid` flipped, no transaction record. -/
def dbAfter0 : DB :=
  { baseDB with accounts := [{ acctNoRef with paid := true }], enrollments := [enr1] }

/-- The final transaction state of the zero-price scenario. -/
def stPrice0 : TxSt :=
  { pending := dbAfter0, price := 0, appliedPromo := none, usedCredit := none,
    enrollments := [enr1] }

/-- An unpaid account referred by account 9. -/
def acctRef : Account := { id := 2, firstName := "Sam", paid := false, refererId := some 9 }

/-- A student of the referred account. -/
def student2 : Student := { id := 8, parentId := 2, name := "Kid2" }

/-- A store whose only account was referred and has an empty ledger. -/
def refDB : DB :=
  { baseDB with students := [student2], accounts := [acctRef], credits := [] }

/-- Request context of the referred account. -/
def ctx2 : Ctx := { userId := some 2, utmSource := "ads", utmCampaign := "fall" }

/-- Arguments enrolling the referred account's student in class 100. -/
def args2 : Args := { argsBase with studentId := 8 }

/-- The data loaded by validating `args2` against `refDB`. -/
def loaded2 : Loaded :=
  { uid := 2, student := student2, account := acctRef, klasses := [klassA] }

/-- Arguments requesting more credit (2000¢) than the balance (1000¢). -/
def argsOver : Args := { argsBase with credit := 2000 }

/-- Arguments requesting 300¢ of credit (within the balance). -/
def argsCredit : Args := { argsBase with credit := 300 }

/-- Arguments requesting 5¢ of credit (within the balance). -/
def argsCr5 : Args := { argsBase with credit := 5 }

/-- Arguments supplying the qualifying promotion 50. -/
def argsPromo : Args := { argsBase with promotionId := some 50 }

/-- Arguments supplying a promotion id (99) that does not qualify. -/
def argsBadPromo : Args := { argsBase with promotionId := some 99 }

/-- The enrollment row of the referred-account scenario. -/
def enr2 : Enrollment :=
  { studentId := 8, classId := 100, source := "ads", campaign := "fall",
    promotionId := none, creditId := none }

/-- The final transaction state of the referred-account scenario:
`paid` flipped and the 2000¢ referral bonus granted to account 9. -/
def stRef : TxSt :=
  { pending := { refDB with
      accounts := [{ acctRef with paid := true }],
      credits := [{ id := 1, userId := 9, cents := 2000, type := CreditType.Referral }],
      enrollments := [enr2],
      txRecords := [{ details := "gw-ok", enrollments := [enr2] }],
      nextCreditId := 2 },
    price := 5000, appliedPromo := none, usedCredit := none, enrollments := [enr2] }

/-- The Purchase ledger row of the 300¢-credit scenario. -/
def rowCr : CreditRow :=
  { id := 1, userId := 1, cents := -300, type := CreditType.Purchase }

/-- The enrollment row of the 300¢-credit scenario. -/
def enrCr : Enrollment :=
  { studentId := 7, classId := 100, source := "ads", campaign := "fall",
    promotionId := none, creditId := some 1 }

/-- The final transaction state of the 300¢-credit scenario: 300¢
consumed, 4700¢ charged. -/
def stCr : TxSt :=
  { pending := { baseDB with
      accounts := [{ acctNoRef with paid := true }],
      credits := baseDB.credits ++ [rowCr],
      enrollments := [enrCr],
      txRecords := [{ details := "gw-ok", enrollments := [enrCr] }],
      nextCreditId := 2 },
    price := 4700, appliedPromo := none, usedCredit := some rowCr,
    enrollments := [enrCr] }

/-- The enrollment row of the promotion scenario. -/
def enrPromo : Enrollment :=
  { studentId := 7, classId := 100, source := "ads", campaign := "fall",
    promotionId := some 50, creditId := none }

/-- The final transaction state of the promotion scenario: counter
incremented, 500¢ discount applied, 4500¢ charged. -/
def stPromo : TxSt :=
  { pending := { baseDB with
      accounts := [{ acctNoRef with paid := true }],
      promotions := [{ promo1 with counts := 4 }],
      enrollments := [enrPromo],
      txRecords := [{ details := "gw-ok", enrollments := [enrPromo] }] },
    price := 4500, appliedPromo := some promo1, usedCredit := none,
    enrollments := [enrPromo] }


/-! ## Inversion lemmas for the validation phase and each stage -/

/-- Inverting a successful validation: the caller was authenticated, the
student belongs to the caller, the account exists, the classes are the
resolved ones (non-empty), and the credit check passed. -/
theorem validate_ok_inv {ctx : Ctx} {args : Args} {db : DB} {L : Loaded}
    (h : validate ctx args db = .ok L) :
    ctx.userId = some L.uid ∧
    db.students.find? (fun s => decide (s.id = args.studentId ∧ s.parentId = L.uid))
      = some L.student ∧
    db.accounts.find? (fun a => decide (a.id = L.uid)) = some L.account ∧
    L.klasses = db.classes.filter (fun k => args.classIds.contains k.id) ∧
    L.klasses ≠ [] ∧
    ¬(args.credit > 0 ∧ args.credit > balanceOf db L.uid) := by
  unfold validate at h
  split at h
  · exact absurd h (by simp)
  next uid huid =>
    split at h
    · exact absurd h (by simp)
    next student hstu =>
      split at h
      · exact absurd h (by simp)
      next account hacc =>
        by_cases hemp : (db.classes.filter (fun k => args.classIds.contains k.id)).isEmpty = true
        · rw [if_pos hemp] at h
          exact absurd h (by simp)
        · by_cases hcr : args.credit > 0 ∧ args.credit > balanceOf db uid
          · rw [if_neg hemp, if_pos hcr] at h
            exact absurd h (by simp)
          · rw [if_neg hemp, if_neg hcr] at h
            cases h
            refine ⟨huid, hstu, hacc, rfl, ?_, hcr⟩
            simpa [List.isEmpty_iff] using hemp

/-- Inverting a successful promotion stage: either the stage was skipped
(price not positive or no promotion id supplied) and the state is
unchanged, or the supplied promotion qualified, the counter increment
succeeded, and the state records the incremented counter, discounted
price and applied promotion. -/
theorem promoStage_ok_inv {env : Env} {args : Args} {account : Account}
    {mainCourse : Course} {isBundle : Bool} {st st1 : TxSt}
    (h : promoStage env args account mainCourse isBundle st = .ok st1) :
    ((st.price ≤ 0 ∨ args.promotionId = none) ∧ st1 = st) ∨
    (∃ pid promo, args.promotionId = some pid ∧ 0 < st.price ∧
      env.getPromotionIfQualified pid account mainCourse = .ok (some promo) ∧
      env.incrementCountsOk = .ok () ∧
      st1 = { st with
              pending := incPromoCounts st.pending promo.id,
              price := applyPromo env.promoRule st.price promo isBundle args.wholeSeries,
              appliedPromo := some promo }) := by
  unfold promoStage at h
  split at h
  next hp =>
    split at h
    · cases h
      exact Or.inl ⟨Or.inr (by assumption), rfl⟩
    next pid hpid =>
      split at h
      · exact absurd h (by simp)
      · exact absurd h (by simp)
      next promo hq =>
        split at h
        · exact absurd h (by simp)
        next u hinc =>
          cases h
          cases u
          exact Or.inr ⟨pid, promo, hpid, hp, hq, hinc, rfl⟩
  next hp =>
    cases h
    exact Or.inl ⟨Or.inl (by omega), rfl⟩

/-- Inverting a successful credit stage: either the step was skipped
(price or requested credit not positive) and the state is unchanged, or
the create succeeded and the state records the consumed credit. -/
theorem creditStage_ok_inv {env : Env} {uid : Nat} {credit : Int} {st st1 : TxSt}
    (h : creditStage env uid credit st = .ok st1) :
    (¬(st.price > 0 ∧ credit > 0) ∧ st1 = st) ∨
    (0 < st.price ∧ 0 < credit ∧ env.creditCreateOk = .ok () ∧
      st1 = { st with
              pending := (addCredit st.pending
                { id := st.pending.nextCreditId, userId := uid,
                  cents := -(applyCredit st.price credit).used, type := CreditType.Purchase }),
              price := (applyCredit st.price credit).result,
              usedCredit := (some
                { id := st.pending.nextCreditId, userId := uid,
                  cents := -(applyCredit st.price credit).used,
                  type := CreditType.Purchase }) }) := by
  unfold creditStage at h
  split at h
  next hp =>
    split at h
    · exact absurd h (by simp)
    next u hcc =>
      cases h
      cases u
      exact Or.inr ⟨hp.1, hp.2, hcc, rfl⟩
  next hp =>
    cases h
    exact Or.inl ⟨hp, rfl⟩

/-- Inverting a successful referral stage: either the guard (regular
main course, unpaid account) fails and the state is unchanged, or the
`paid` flip succeeded and — when the remaining price is positive and a
referer exists — the referral bonus row was appended too. -/
theorem referralStage_ok_inv {env : Env} {account : Account} {mainCourse : Course}
    {st st1 : TxSt}
    (h : referralStage env account mainCourse st = .ok st1) :
    (¬(mainCourse.isRegular = true ∧ account.paid = false) ∧ st1 = st) ∨
    (mainCourse.isRegular = true ∧ account.paid = false ∧
      env.accountUpdateOk = .ok () ∧
      ((∃ rid, 0 < st.price ∧ account.refererId = some rid ∧
          env.referralCreateOk = .ok () ∧
          st1 = { st with pending := (addCredit (setPaid st.pending account.id)
                    { id := (setPaid st.pending account.id).nextCreditId, userId := rid,
                      cents := env.referralBonus, type := CreditType.Referral }) }) ∨
        ((st.price ≤ 0 ∨ account.refererId = none) ∧
          st1 = { st with pending := setPaid st.pending account.id }))) := by
  unfold referralStage at h
  split at h
  next hcond =>
    split at h
    · exact absurd h (by simp)
    next u hupd =>
      cases u
      split at h
      next hp =>
        split at h
        next rid hrid =>
          split at h
          · exact absurd h (by simp)
          next u2 hrc =>
            cases h
            cases u2
            exact Or.inr ⟨hcond.1, hcond.2, hupd, Or.inl ⟨rid, hp, hrid, hrc, rfl⟩⟩
        next hrid =>
          cases h
          exact Or.inr ⟨hcond.1, hcond.2, hupd, Or.inr ⟨Or.inr hrid, rfl⟩⟩
      next hp =>
        cases h
        exact Or.inr ⟨hcond.1, hcond.2, hupd, Or.inr ⟨Or.inl (by omega), rfl⟩⟩
  next hcond =>
    cases h
    exact Or.inl ⟨hcond, rfl⟩

/-- Inverting a successful persistence stage: the bulk create succeeded
and exactly one enrollment row per resolved class was appended to the
pending database. -/
theorem persistStage_ok_inv {env : Env} {ctx : Ctx} {studentId : Nat}
    {klasses : List Klass} {st st1 : TxSt}
    (h : persistStage env ctx studentId klasses st = .ok st1) :
    env.bulkCreateOk = .ok () ∧
    st1 = { st with
            pending := { st.pending with
              enrollments := st.pending.enrollments
                ++ klasses.map (mkEnrollment ctx st studentId) },
            enrollments := klasses.map (mkEnrollment ctx st studentId) } := by
  unfold persistStage at h
  split at h
  · exact absurd h (by simp)
  next u hbc =>
    cases h
    cases u
    exact ⟨hbc, rfl⟩

/-- Inverting a successful charge stage: either the remaining price was
not positive — no gateway call, no transaction record — or the gateway
was called once with the remaining amount and the transaction record
was persisted and linked. -/
theorem chargeStage_ok_inv {env : Env} {args : Args} {st st1 : TxSt} {log : List Int}
    (h : chargeStage env args st = (.ok st1, log)) :
    (st.price ≤ 0 ∧ st1 = st ∧ log = []) ∨
    (0 < st.price ∧ log = [st.price] ∧
      ∃ details, env.sale (st.price / 100) args.paymentMethodNonce
          (args.classIds.headD 0 + args.studentId) = .ok details ∧
        env.txCreateOk = .ok () ∧ env.addEnrollmentsOk = .ok () ∧
        st1 = { st with pending := { st.pending with
                  txRecords := st.pending.txRecords
                    ++ [{ details := details, enrollments := st.enrollments }] } }) := by
  unfold chargeStage at h
  split at h
  next hp =>
    split at h
    · exact absurd h (by simp)
    next details hsale =>
      split at h
      · exact absurd h (by simp)
      next u htc =>
        cases u
        split at h
        · exact absurd h (by simp)
        next u2 hae =>
          cases u2
          cases h
          exact Or.inr ⟨hp, rfl, details, hsale, htc, hae, rfl⟩
  next hp =>
    cases h
    exact Or.inl ⟨by omega, rfl, rfl⟩

/-- The gateway-call log of the charge stage: empty, or one call with
the positive remaining amount. -/
theorem chargeStage_log (env : Env) (args : Args) (st : TxSt) :
    (chargeStage env args st).2 = [] ∨
    (0 < st.price ∧ (chargeStage env args st).2 = [st.price]) := by
  unfold chargeStage
  split
  next hp =>
    split
    · exact Or.inr ⟨hp, rfl⟩
    · split
      · exact Or.inr ⟨hp, rfl⟩
      · split
        · exact Or.inr ⟨hp, rfl⟩
        · exact Or.inr ⟨hp, rfl⟩
  next hp => exact Or.inl rfl

/-- A non-empty class list always has a main class. -/
theorem mainClassOf_of_ne_nil {ks : List Klass} (h : ks ≠ []) :
    ∃ m, mainClassOf ks = some m := by
  cases ks with
  | nil => exact absurd rfl h
  | cons k rest => exact ⟨rest.foldl pickLower k, rfl⟩

/-- Inverting a successful transaction body: each of the five stages
succeeded in order, starting from the opening state. -/
theorem enrollTxPhase_ok_inv {env : Env} {ctx : Ctx} {args : Args} {L : Loaded}
    {db : DB} {st : TxSt} {log : List Int}
    (h : enrollTxPhase env ctx args L db = (.ok st, log)) :
    ∃ mainKlass st1 st2 st3 st4,
      mainClassOf L.klasses = some mainKlass ∧
      promoStage env args L.account mainKlass.course
        (isBundleOf L.klasses args.wholeSeries) (initSt env args L db) = .ok st1 ∧
      creditStage env L.uid args.credit st1 = .ok st2 ∧
      referralStage env L.account mainKlass.course st2 = .ok st3 ∧
      persistStage env ctx L.student.id L.klasses st3 = .ok st4 ∧
      chargeStage env args st4 = (.ok st, log) := by
  unfold enrollTxPhase at h
  split at h
  · exact absurd h (by simp)
  next mainKlass hmain =>
    split at h
    · exact absurd h (by simp)
    next st1 h1 =>
      split at h
      · exact absurd h (by simp)
      next st2 h2 =>
        split at h
        · exact absurd h (by simp)
        next st3 h3 =>
          split at h
          · exact absurd h (by simp)
          next st4 h4 =>
            exact ⟨mainKlass, st1, st2, st3, st4, hmain, h1, h2, h3, h4, h⟩

/-! ## Frame lemmas: what each stage leaves untouched -/

/-- The promotion stage touches only the promotion counters, the price
and the applied-promotion register. -/
theorem promoStage_frame {env : Env} {args : Args} {account : Account}
    {mainCourse : Course} {isBundle : Bool} {st st1 : TxSt}
    (h : promoStage env args account mainCourse isBundle st = .ok st1) :
    st1.pending.enrollments = st.pending.enrollments ∧
    st1.pending.txRecords = st.pending.txRecords ∧
    st1.pending.accounts = st.pending.accounts ∧
    st1.pending.credits = st.pending.credits ∧
    st1.pending.nextCreditId = st.pending.nextCreditId ∧
    st1.enrollments = st.enrollments ∧
    st1.usedCredit = st.usedCredit := by
  rcases promoStage_ok_inv h with ⟨-, rfl⟩ | ⟨pid, promo, -, -, -, -, rfl⟩
  · exact ⟨rfl, rfl, rfl, rfl, rfl, rfl, rfl⟩
  · simp [incPromoCounts]

/-- The credit stage touches only the ledger (adding a Purchase row),
the price and the used-credit register: Referral rows are untouched. -/
theorem creditStage_frame {env : Env} {uid : Nat} {credit : Int} {st st1 : TxSt}
    (h : creditStage env uid credit st = .ok st1) :
    st1.pending.enrollments = st.pending.enrollments ∧
    st1.pending.txRecords = st.pending.txRecords ∧
    st1.pending.accounts = st.pending.accounts ∧
    st1.pending.promotions = st.pending.promotions ∧
    st1.pending.credits.filter isReferralRow = st.pending.credits.filter isReferralRow ∧
    st1.enrollments = st.enrollments ∧
    st1.appliedPromo = st.appliedPromo := by
  rcases creditStage_ok_inv h with ⟨-, rfl⟩ | ⟨-, -, -, rfl⟩
  · exact ⟨rfl, rfl, rfl, rfl, rfl, rfl, rfl⟩
  · refine ⟨rfl, rfl, rfl, rfl, ?_, rfl, rfl⟩
    simp [addCredit, List.filter_append, isReferralRow]

/-- The referral stage touches only the `paid` flag and the ledger
(adding a Referral row): price, Purchase rows, and all registers are
untouched. -/
theorem referralStage_frame {env : Env} {account : Account} {mainCourse : Course}
    {st st1 : TxSt}
    (h : referralStage env account mainCourse st = .ok st1) :
    st1.pending.enrollments = st.pending.enrollments ∧
    st1.pending.txRecords = st.pending.txRecords ∧
    st1.pending.promotions = st.pending.promotions ∧
    st1.pending.credits.filter isPurchaseRow = st.pending.credits.filter isPurchaseRow ∧
    st1.enrollments = st.enrollments ∧
    st1.appliedPromo = st.appliedPromo ∧
    st1.usedCredit = st.usedCredit ∧
    st1.price = st.price := by
  rcases referralStage_ok_inv h with ⟨-, rfl⟩ | ⟨-, -, -, ⟨rid, -, -, -, rfl⟩ | ⟨-, rfl⟩⟩
  · exact ⟨rfl, rfl, rfl, rfl, rfl, rfl, rfl, rfl⟩
  · refine ⟨?_, ?_, ?_, ?_, rfl, rfl, rfl, rfl⟩ <;>
      simp [addCredit, setPaid, List.filter_append, isPurchaseRow]
  · refine ⟨?_, ?_, ?_, ?_, rfl, rfl, rfl, rfl⟩ <;> simp [setPaid]

/-- The persistence stage appends the enrollment rows and touches
nothing else. -/
theorem persistStage_frame {env : Env} {ctx : Ctx} {studentId : Nat}
    {klasses : List Klass} {st st1 : TxSt}
    (h : persistStage env ctx studentId klasses st = .ok st1) :
    st1.pending.accounts = st.pending.accounts ∧
    st1.pending.credits = st.pending.credits ∧
    st1.pending.promotions = st.pending.promotions ∧
    st1.pending.txRecords = st.pending.txRecords ∧
    st1.price = st.price ∧
    st1.usedCredit = st.usedCredit ∧
    st1.appliedPromo = st.appliedPromo ∧
    st1.enrollments = klasses.map (mkEnrollment ctx st studentId) ∧
    st1.pending.enrollments
      = st.pending.enrollments ++ klasses.map (mkEnrollment ctx st studentId) := by
  obtain ⟨-, rfl⟩ := persistStage_ok_inv h
  exact ⟨rfl, rfl, rfl, rfl, rfl, rfl, rfl, rfl, rfl⟩

/-- The charge stage appends the transaction record and touches nothing
else. -/
theorem chargeStage_frame {env : Env} {args : Args} {st st1 : TxSt} {log : List Int}
    (h : chargeStage env args st = (.ok st1, log)) :
    st1.pending.enrollments = st.pending.enrollments ∧
    st1.pending.accounts = st.pending.accounts ∧
    st1.pending.promotions = st.pending.promotions ∧
    st1.pending.credits = st.pending.credits ∧
    st1.enrollments = st.enrollments ∧
    st1.price = st.price ∧
    st1.usedCredit = st.usedCredit ∧
    st1.appliedPromo = st.appliedPromo := by
  rcases chargeStage_ok_inv h with ⟨-, rfl, -⟩ | ⟨-, -, d, -, -, -, rfl⟩
  · exact ⟨rfl, rfl, rfl, rfl, rfl, rfl, rfl, rfl⟩
  · exact ⟨rfl, rfl, rfl, rfl, rfl, rfl, rfl, rfl⟩

/-! ## Composition lemmas for a successful transaction body -/

/-- A successful transaction body appends exactly one enrollment row per
resolved class (for this student) to the store, and reports that list. -/
theorem enrollTxPhase_ok_enrollments {env : Env} {ctx : Ctx} {args : Args}
    {L : Loaded} {db : DB} {st : TxSt} {log : List Int}
    (h : enrollTxPhase env ctx args L db = (.ok st, log)) :
    st.pending.enrollments = db.enrollments ++ st.enrollments ∧
    st.enrollments.map (fun e => e.classId) = L.klasses.map (fun k => k.id) ∧
    (∀ e ∈ st.enrollments, e.studentId = L.student.id) := by
  obtain ⟨mk, st1, st2, st3, st4, hmain, h1, h2, h3, h4, h5⟩ := enrollTxPhase_ok_inv h
  obtain ⟨he1, -, -, -, -, -, -⟩ := promoStage_frame h1
  obtain ⟨he2, -, -, -, -, -, -⟩ := creditStage_frame h2
  obtain ⟨he3, -, -, -, -, -, -, -⟩ := referralStage_frame h3
  obtain ⟨-, -, -, -, -, -, -, hen4, hpe4⟩ := persistStage_frame h4
  obtain ⟨hpe5, -, -, -, hen5, -, -, -⟩ := chargeStage_frame h5
  have hinit : st3.pending.enrollments = db.enrollments := by
    rw [he3, he2, he1]; rfl
  constructor
  · rw [hpe5, hpe4, hinit, hen5, hen4]
  constructor
  · rw [hen5, hen4]
    simp [mkEnrollment, List.map_map, Function.comp]
  · intro e he
    rw [hen5, hen4] at he
    simp only [List.mem_map] at he
    obtain ⟨k, -, rfl⟩ := he
    rfl

/-- A validation failure returns the error with the store untouched, no
event, no gateway call. -/
theorem enrollClass_of_validate_error {env : Env} {ctx : Ctx} {args : Args} {db : DB}
    {e : Err} (hv : validate ctx args db = .error e) :
    enrollClass env ctx args db
      = { result := .error e, db := db, events := [], saleLog := [] } := by
  unfold enrollClass
  rw [hv]

/-- A transaction-body failure rolls back: the error is returned with
the store untouched and no event. -/
theorem enrollClass_of_tx_error {env : Env} {ctx : Ctx} {args : Args} {db : DB}
    {L : Loaded} {e : Err} {log : List Int}
    (hv : validate ctx args db = .ok L)
    (htx : enrollTxPhase env ctx args L db = (.error e, log)) :
    enrollClass env ctx args db
      = { result := .error e, db := db, events := [], saleLog := log } := by
  simp only [enrollClass, hv, htx]

/-- A successful transaction body followed by a successful emission
commits the pending store and publishes the enrollment list. -/
theorem enrollClass_of_tx_ok_emit_ok {env : Env} {ctx : Ctx} {args : Args} {db : DB}
    {L : Loaded} {st : TxSt} {log : List Int}
    (hv : validate ctx args db = .ok L)
    (htx : enrollTxPhase env ctx args L db = (.ok st, log))
    (hem : env.emit st.enrollments = .ok ()) :
    enrollClass env ctx args db
      = { result := .ok st.enrollments, db := st.pending,
          events := [st.enrollments], saleLog := log } := by
  simp only [enrollClass, hv, htx, hem]

/-- A successful transaction body followed by a failing emission keeps
the committed store but re-raises the emission error without an event. -/
theorem enrollClass_of_tx_ok_emit_error {env : Env} {ctx : Ctx} {args : Args} {db : DB}
    {L : Loaded} {st : TxSt} {log : List Int} {e : Err}
    (hv : validate ctx args db = .ok L)
    (htx : enrollTxPhase env ctx args L db = (.ok st, log))
    (hem : env.emit st.enrollments = .error e) :
    enrollClass env ctx args db
      = { result := .error e, db := st.pending, events := [], saleLog := log } := by
  simp only [enrollClass, hv, htx, hem]

/-- The gateway-call log of the transaction body: empty, or exactly one
call with a positive amount. -/
theorem enrollTxPhase_log (env : Env) (ctx : Ctx) (args : Args) (L : Loaded) (db : DB) :
    (enrollTxPhase env ctx args L db).2 = [] ∨
    ∃ p, 0 < p ∧ (enrollTxPhase env ctx args L db).2 = [p] := by
  unfold enrollTxPhase
  split
  · exact Or.inl rfl
  next mk hmain =>
    split
    · exact Or.inl rfl
    next st1 h1 =>
      split
      · exact Or.inl rfl
      next st2 h2 =>
        split
        · exact Or.inl rfl
        next st3 h3 =>
          split
          · exact Or.inl rfl
          next st4 h4 =>
            rcases chargeStage_log env args st4 with hl | ⟨hp, hl⟩
            · exact Or.inl hl
            · exact Or.inr ⟨st4.price, hp, hl⟩

/-- The gateway-call log of a whole request: empty, or exactly one call
with a positive amount. -/
theorem enrollClass_saleLog (env : Env) (ctx : Ctx) (args : Args) (db : DB) :
    (enrollClass env ctx args db).saleLog = [] ∨
    ∃ p, 0 < p ∧ (enrollClass env ctx args db).saleLog = [p] := by
  unfold enrollClass
  split
  · exact Or.inl rfl
  next L hv =>
    have hlog := enrollTxPhase_log env ctx args L db
    split
    next e log ht =>
      rw [ht] at hlog
      simpa using hlog
    next st log ht =>
      rw [ht] at hlog
      split
      · simpa using hlog
      · simpa using hlog

/-- In a successful transaction body the Purchase rows added to the
ledger are exactly the used-credit register: one negative Purchase row
of `-min(credit, P)` cents for the caller when credit was applied to a
positive price `P` (the price after the promotion step), none
otherwise. -/
theorem enrollTxPhase_ok_purchaseRows {env : Env} {ctx : Ctx} {args : Args}
    {L : Loaded} {db : DB} {st : TxSt} {log : List Int}
    (h : enrollTxPhase env ctx args L db = (.ok st, log)) :
    (st.usedCredit = none →
      st.pending.credits.filter isPurchaseRow = db.credits.filter isPurchaseRow) ∧
    (∀ row, st.usedCredit = some row →
      row.userId = L.uid ∧ row.type = CreditType.Purchase ∧
      (∃ P, 0 < P ∧ 0 < args.credit ∧
        row.cents = -(min args.credit P) ∧
        st.price = P - min args.credit P ∧ 0 ≤ st.price) ∧
      st.pending.credits.filter isPurchaseRow
        = db.credits.filter isPurchaseRow ++ [row]) := by
  obtain ⟨mk, st1, st2, st3, st4, hmain, h1, h2, h3, h4, h5⟩ := enrollTxPhase_ok_inv h
  obtain ⟨-, -, -, hc1, -, -, hu1⟩ := promoStage_frame h1
  obtain ⟨-, -, -, hc3, -, -, hu3, hp3⟩ := referralStage_frame h3
  obtain ⟨-, hc4, -, -, hp4, hu4, -, -, -⟩ := persistStage_frame h4
  obtain ⟨-, -, -, hc5, -, hp5, hu5, -⟩ := chargeStage_frame h5
  have hufinal : st.usedCredit = st2.usedCredit := by rw [hu5, hu4, hu3]
  have hpfinal : st.price = st2.price := by rw [hp5, hp4, hp3]
  have hcfinal : st.pending.credits.filter isPurchaseRow
      = st2.pending.credits.filter isPurchaseRow := by
    rw [hc5, hc4, hc3]
  have hu1init : st1.usedCredit = none := by rw [hu1]; rfl
  have hc1init : st1.pending.credits = db.credits := by rw [hc1]; rfl
  rcases creditStage_ok_inv h2 with ⟨-, rfl⟩ | ⟨hpp, hcc, -, rfl⟩
  · constructor
    · intro _
      rw [hcfinal, hc1init]
    · intro row hrow
      rw [hufinal, hu1init] at hrow
      exact absurd hrow (by simp)
  · constructor
    · intro hnone
      rw [hufinal] at hnone
      exact absurd hnone (by simp)
    · intro row hrow
      rw [hufinal] at hrow
      simp only [Option.some.injEq] at hrow
      subst hrow
      refine ⟨rfl, rfl, ⟨st1.price, hpp, hcc, rfl, hpfinal.trans rfl, ?_⟩, ?_⟩
      · rw [hpfinal]
        have := min_le_right args.credit st1.price
        show (0:Int) ≤ (applyCredit st1.price args.credit).result
        simp only [applyCredit]
        omega
      · rw [hcfinal]
        show ((addCredit st1.pending _).credits.filter isPurchaseRow) = _
        simp only [addCredit, List.filter_append, hc1init]
        simp [isPurchaseRow]

/-- In a successful transaction body the `paid` flag is set on the
caller's account row exactly when the main course is regular and the
account had not yet paid; otherwise the account table is untouched. -/
theorem enrollTxPhase_ok_accounts {env : Env} {ctx : Ctx} {args : Args}
    {L : Loaded} {db : DB} {st : TxSt} {log : List Int} {mainKlass : Klass}
    (h : enrollTxPhase env ctx args L db = (.ok st, log))
    (hmain : mainClassOf L.klasses = some mainKlass) :
    ((mainKlass.course.isRegular = true ∧ L.account.paid = false) →
      st.pending.accounts = db.accounts.map
        (fun a => if a.id = L.account.id then { a with paid := true } else a)) ∧
    (¬(mainKlass.course.isRegular = true ∧ L.account.paid = false) →
      st.pending.accounts = db.accounts) := by
  obtain ⟨mk, st1, st2, st3, st4, hmain2, h1, h2, h3, h4, h5⟩ := enrollTxPhase_ok_inv h
  rw [hmain] at hmain2
  cases hmain2
  obtain ⟨-, -, ha1, -, -, -, -⟩ := promoStage_frame h1
  obtain ⟨-, -, ha2, -, -, -, -⟩ := creditStage_frame h2
  obtain ⟨ha4, -, -, -, -, -, -, -, -⟩ := persistStage_frame h4
  obtain ⟨-, ha5, -, -, -, -, -, -⟩ := chargeStage_frame h5
  have ha2init : st2.pending.accounts = db.accounts := by rw [ha2, ha1]; rfl
  have hafinal : st.pending.accounts = st3.pending.accounts := by rw [ha5, ha4]
  rcases referralStage_ok_inv h3 with ⟨hng, rfl⟩ |
      ⟨hreg, hpaid, -, ⟨rid, -, -, -, rfl⟩ | ⟨-, rfl⟩⟩
  · exact ⟨fun hcond => absurd hcond hng, fun _ => by rw [hafinal, ha2init]⟩
  · refine ⟨fun _ => ?_, fun hmiss => absurd ⟨hreg, hpaid⟩ hmiss⟩
    rw [hafinal]
    show (addCredit (setPaid st2.pending L.account.id) _).accounts = _
    simp [addCredit, setPaid, ha2init]
  · refine ⟨fun _ => ?_, fun hmiss => absurd ⟨hreg, hpaid⟩ hmiss⟩
    rw [hafinal]
    show (setPaid st2.pending L.account.id).accounts = _
    simp [setPaid, ha2init]

/-- In a successful transaction body a Referral row for the fixed bonus
is appended for the referring account exactly when the main course is
regular, the account had not paid, the remaining price is positive and a
referer exists; otherwise the Referral rows are untouched. -/
theorem enrollTxPhase_ok_referralRows {env : Env} {ctx : Ctx} {args : Args}
    {L : Loaded} {db : DB} {st : TxSt} {log : List Int} {mainKlass : Klass}
    (h : enrollTxPhase env ctx args L db = (.ok st, log))
    (hmain : mainClassOf L.klasses = some mainKlass) :
    ((mainKlass.course.isRegular = true ∧ L.account.paid = false ∧ 0 < st.price ∧
        L.account.refererId ≠ none) →
      ∃ i rid, L.account.refererId = some rid ∧
        st.pending.credits.filter isReferralRow
          = db.credits.filter isReferralRow
            ++ [{ id := i, userId := rid, cents := env.referralBonus,
                  type := CreditType.Referral }]) ∧
    (¬(mainKlass.course.isRegular = true ∧ L.account.paid = false ∧ 0 < st.price ∧
        L.account.refererId ≠ none) →
      st.pending.credits.filter isReferralRow = db.credits.filter isReferralRow) := by
  obtain ⟨mk, st1, st2, st3, st4, hmain2, h1, h2, h3, h4, h5⟩ := enrollTxPhase_ok_inv h
  rw [hmain] at hmain2
  cases hmain2
  obtain ⟨-, -, -, hc1, -, -, -⟩ := promoStage_frame h1
  obtain ⟨-, -, -, -, hc2, -, -⟩ := creditStage_frame h2
  obtain ⟨-, -, -, -, -, -, -, hp3⟩ := referralStage_frame h3
  obtain ⟨-, hc4, -, -, hp4, -, -, -, -⟩ := persistStage_frame h4
  obtain ⟨-, -, -, hc5, -, hp5, -, -⟩ := chargeStage_frame h5
  have hc2init : st2.pending.credits.filter isReferralRow
      = db.credits.filter isReferralRow := by
    rw [hc2, hc1]; rfl
  have hcfinal : st.pending.credits.filter isReferralRow
      = st3.pending.credits.filter isReferralRow := by
    rw [hc5, hc4]
  have hpfinal : st.price = st2.price := by rw [hp5, hp4, hp3]
  rcases referralStage_ok_inv h3 with ⟨hng, rfl⟩ |
      ⟨hreg, hpaid, -, ⟨rid, hpp, hrid, -, rfl⟩ | ⟨hskip, rfl⟩⟩
  · constructor
    · intro hcond
      exact absurd ⟨hcond.1, hcond.2.1⟩ hng
    · intro _
      rw [hcfinal, hc2init]
  · constructor
    · intro _
      refine ⟨(setPaid st2.pending L.account.id).nextCreditId, rid, hrid, ?_⟩
      rw [hcfinal]
      show ((addCredit (setPaid st2.pending L.account.id) _).credits.filter isReferralRow) = _
      simp only [addCredit, setPaid, List.filter_append]
      rw [hc2init]
      simp [isReferralRow]
    · intro hmiss
      exact absurd ⟨hreg, hpaid, by rwa [hpfinal], by rw [hrid]; simp⟩ hmiss
  · constructor
    · intro hcond
      rcases hskip with hple | hrnone
      · rw [hpfinal] at hcond
        exact absurd hcond.2.2.1 (by omega)
      · exact absurd hrnone (by simpa using hcond.2.2.2)
    · intro _
      rw [hcfinal]
      show ((setPaid st2.pending L.account.id).credits.filter isReferralRow) = _
      simp only [setPaid]
      rw [hc2init]

/-- In a successful transaction body with a positive computed price and
a supplied promotion id, the promotion qualified and its usage counter
was incremented exactly once. -/
theorem enrollTxPhase_ok_promoCounts {env : Env} {ctx : Ctx} {args : Args}
    {L : Loaded} {db : DB} {st : TxSt} {log : List Int} {mainKlass : Klass} {pid : Nat}
    (h : enrollTxPhase env ctx args L db = (.ok st, log))
    (hmain : mainClassOf L.klasses = some mainKlass)
    (hpid : args.promotionId = some pid)
    (hp0 : 0 < env.getTotalPriceInCents L.klasses args.wholeSeries) :
    ∃ promo, env.getPromotionIfQualified pid L.account mainKlass.course = .ok (some promo) ∧
      st.appliedPromo = some promo ∧
      st.pending.promotions = db.promotions.map
        (fun p => if p.id = promo.id then { p with counts := p.counts + 1 } else p) := by
  obtain ⟨mk, st1, st2, st3, st4, hmain2, h1, h2, h3, h4, h5⟩ := enrollTxPhase_ok_inv h
  rw [hmain] at hmain2
  cases hmain2
  obtain ⟨-, -, -, hpr2, -, -, hap2⟩ := creditStage_frame h2
  obtain ⟨-, -, hpr3, -, -, hap3, -, -⟩ := referralStage_frame h3
  obtain ⟨-, -, hpr4, -, -, -, hap4, -, -⟩ := persistStage_frame h4
  obtain ⟨-, -, hpr5, -, -, -, -, hap5⟩ := chargeStage_frame h5
  rcases promoStage_ok_inv h1 with ⟨hskip, rfl⟩ | ⟨pid2, promo, hpid2, -, hq, -, rfl⟩
  · rcases hskip with hple | hnone
    · exact absurd hple (by simp only [initSt]; omega)
    · rw [hpid] at hnone
      exact absurd hnone (by simp)
  · rw [hpid] at hpid2
    cases hpid2
    refine ⟨promo, hq, ?_, ?_⟩
    · rw [hap5, hap4, hap3, hap2]
    · rw [hpr5, hpr4, hpr3, hpr2]
      show (incPromoCounts (initSt env args L db).pending promo.id).promotions = _
      simp [incPromoCounts, initSt]

/-- With a positive computed price, a supplied promotion id that does
not qualify fails the whole transaction body with `badRequest`, making
no gateway call. -/
theorem enrollTxPhase_notQualified {env : Env} {ctx : Ctx} {args : Args}
    {L : Loaded} {db : DB} {mainKlass : Klass} {pid : Nat}
    (hmain : mainClassOf L.klasses = some mainKlass)
    (hpid : args.promotionId = some pid)
    (hp0 : 0 < env.getTotalPriceInCents L.klasses args.wholeSeries)
    (hq : env.getPromotionIfQualified pid L.account mainKlass.course = .ok none) :
    enrollTxPhase env ctx args L db
      = (.error (.badRequest ("promotion " ++ toString pid ++ " is not valid")), []) := by
  have hps : promoStage env args L.account mainKlass.course
      (isBundleOf L.klasses args.wholeSeries) (initSt env args L db)
      = .error (.badRequest ("promotion " ++ toString pid ++ " is not valid")) := by
    unfold promoStage
    rw [if_pos (by simp only [initSt]; exact hp0)]
    simp only [hpid, hq]
  unfold enrollTxPhase
  simp only [hmain, hps]

/-! ## Forward lemmas for the validation phase -/

/-- No caller identity: validation is `Unauthorized`. -/
theorem validate_unauthorized {ctx : Ctx} {args : Args} {db : DB}
    (h : ctx.userId = none) :
    validate ctx args db = .error (.unauthorized "You must login first") := by
  unfold validate
  rw [h]

/-- No student of the caller with the requested id: not found. -/
theorem validate_student_missing {ctx : Ctx} {args : Args} {db : DB} {uid : Nat}
    (h : ctx.userId = some uid)
    (hs : db.students.find? (fun s => decide (s.id = args.studentId ∧ s.parentId = uid))
      = none) :
    validate ctx args db = .error (.notFound "student not found") := by
  unfold validate
  simp only [h, hs]

/-- No account row for the caller: not found. -/
theorem validate_account_missing {ctx : Ctx} {args : Args} {db : DB} {uid : Nat}
    {student : Student}
    (h : ctx.userId = some uid)
    (hs : db.students.find? (fun s => decide (s.id = args.studentId ∧ s.parentId = uid))
      = some student)
    (ha : db.accounts.find? (fun a => decide (a.id = uid)) = none) :
    validate ctx args db = .error (.notFound "account not found") := by
  unfold validate
  simp only [h, hs, ha]

/-- No requested class resolves: `BadRequest`. -/
theorem validate_no_classes {ctx : Ctx} {args : Args} {db : DB} {uid : Nat}
    {student : Student} {account : Account}
    (h : ctx.userId = some uid)
    (hs : db.students.find? (fun s => decide (s.id = args.studentId ∧ s.parentId = uid))
      = some student)
    (ha : db.accounts.find? (fun a => decide (a.id = uid)) = some account)
    (he : (db.classes.filter (fun k => args.classIds.contains k.id)).isEmpty = true) :
    validate ctx args db = .error (.badRequest "invalid classIds") := by
  unfold validate
  simp only [h, hs, ha]
  rw [if_pos he]

/-- Requested credit above the balance: `BadRequest`. -/
theorem validate_insufficient_credit {ctx : Ctx} {args : Args} {db : DB} {uid : Nat}
    {student : Student} {account : Account}
    (h : ctx.userId = some uid)
    (hs : db.students.find? (fun s => decide (s.id = args.studentId ∧ s.parentId = uid))
      = some student)
    (ha : db.accounts.find? (fun a => decide (a.id = uid)) = some account)
    (he : (db.classes.filter (fun k => args.classIds.contains k.id)).isEmpty = false)
    (hc : args.credit > 0 ∧ args.credit > balanceOf db uid) :
    validate ctx args db = .error (.badRequest "you do not have enough credit") := by
  unfold validate
  simp only [h, hs, ha]
  rw [if_neg (by simp only [he]; decide), if_pos hc]

/-- All checks pass: validation returns the loaded data. -/
theorem validate_ok_of {ctx : Ctx} {args : Args} {db : DB} {uid : Nat}
    {student : Student} {account : Account}
    (h : ctx.userId = some uid)
    (hs : db.students.find? (fun s => decide (s.id = args.studentId ∧ s.parentId = uid))
      = some student)
    (ha : db.accounts.find? (fun a => decide (a.id = uid)) = some account)
    (he : (db.classes.filter (fun k => args.classIds.contains k.id)).isEmpty = false)
    (hc : ¬(args.credit > 0 ∧ args.credit > balanceOf db uid)) :
    validate ctx args db
      = .ok { uid := uid, student := student, account := account,
              klasses := db.classes.filter (fun k => args.classIds.contains k.id) } := by
  unfold validate
  simp only [h, hs, ha]
  rw [if_neg (by simp only [he]; decide), if_neg hc]

/-! ## The main-class selection -/

/-- `pickLower` never increases the level. -/
theorem pickLower_level_le_left (m k : Klass) :
    (pickLower m k).course.level ≤ m.course.level := by
  unfold pickLower
  split
  · exact le_of_lt (by assumption)
  · exact le_refl _

/-- `pickLower` is at most the level of its second argument. -/
theorem pickLower_level_le_right (m k : Klass) :
    (pickLower m k).course.level ≤ k.course.level := by
  unfold pickLower
  split
  · exact le_refl _
  · exact le_of_not_lt (by assumption)

/-- `pickLower` returns one of its arguments. -/
theorem pickLower_eq_or (m k : Klass) : pickLower m k = m ∨ pickLower m k = k := by
  unfold pickLower
  split
  · exact Or.inr rfl
  · exact Or.inl rfl

/-- The fold of `pickLower` returns the start or a list element. -/
theorem foldl_pickLower_mem (ks : List Klass) : ∀ init : Klass,
    ks.foldl pickLower init = init ∨ ks.foldl pickLower init ∈ ks := by
  induction ks with
  | nil => exact fun init => Or.inl rfl
  | cons k rest ih =>
    intro init
    rw [List.foldl_cons]
    rcases ih (pickLower init k) with h | h
    · rw [h]
      rcases pickLower_eq_or init k with h2 | h2
      · exact Or.inl h2
      · rw [h2]
        exact Or.inr (List.mem_cons_self k rest)
    · exact Or.inr (List.mem_cons_of_mem k h)

/-- The fold of `pickLower` has level at most the start's and at most
every list element's. -/
theorem foldl_pickLower_le (ks : List Klass) : ∀ init : Klass,
    (ks.foldl pickLower init).course.level ≤ init.course.level ∧
    ∀ k ∈ ks, (ks.foldl pickLower init).course.level ≤ k.course.level := by
  induction ks with
  | nil =>
    intro init
    refine ⟨le_refl _, ?_⟩
    intro k hk
    cases hk
  | cons k rest ih =>
    intro init
    obtain ⟨h1, h2⟩ := ih (pickLower init k)
    rw [List.foldl_cons]
    refine ⟨le_trans h1 (pickLower_level_le_left init k), ?_⟩
    intro k' hk'
    rcases List.mem_cons.mp hk' with rfl | hk'
    · exact le_trans h1 (pickLower_level_le_right init k')
    · exact h2 k' hk'

/-! ## Claim theorems -/

/-- C1: if any step inside the `enrollClass` transaction fails, every
write made in that attempt is rolled back — the store is unchanged
afterwards and no event is emitted — and the original error is
re-raised to the caller unchanged. -/
theorem C1_rollback_reraise (env : Env) (ctx : Ctx) (args : Args) (db : DB)
    (L : Loaded) (e : Err)
    (hv : validate ctx args db = .ok L)
    (htx : (enrollTxPhase env ctx args L db).1 = .error e) :
    (enrollClass env ctx args db).result = .error e ∧
    (enrollClass env ctx args db).db = db ∧
    (enrollClass env ctx args db).events = [] := by
  cases ht : enrollTxPhase env ctx args L db with
  | mk r log =>
    rw [ht] at htx
    have hr : r = .error e := htx
    subst hr
    rw [enrollClass_of_tx_error hv ht]
    exact ⟨rfl, rfl, rfl⟩

/-- Witness for C1: a declined gateway charge rolls the whole attempt
back and re-raises the payment failure. -/
theorem C1_witness :
    (enrollClass envSaleFail ctx1 argsBase baseDB).result
      = .error (.paymentFailure "declined") ∧
    (enrollClass envSaleFail ctx1 argsBase baseDB).db = baseDB ∧
    (enrollClass envSaleFail ctx1 argsBase baseDB).events = [] :=
  C1_rollback_reraise envSaleFail ctx1 argsBase baseDB loaded1
    (.paymentFailure "declined") (by decide) (by decide)

/-- C6: all input validation — authentication, student ownership, class
resolution, credit balance — happens before the transaction opens, with
the documented error kinds, and a validation failure performs no
persistent write, emits nothing and never calls the gateway. -/
theorem C6_validation_before_tx (env : Env) (ctx : Ctx) (args : Args) (db : DB) :
    (∀ e, validate ctx args db = .error e →
      enrollClass env ctx args db
        = { result := .error e, db := db, events := [], saleLog := [] }) ∧
    (ctx.userId = none →
      validate ctx args db = .error (.unauthorized "You must login first")) ∧
    (∀ uid, ctx.userId = some uid →
      db.students.find? (fun s => decide (s.id = args.studentId ∧ s.parentId = uid))
        = none →
      validate ctx args db = .error (.notFound "student not found")) ∧
    (∀ uid student account, ctx.userId = some uid →
      db.students.find? (fun s => decide (s.id = args.studentId ∧ s.parentId = uid))
        = some student →
      db.accounts.find? (fun a => decide (a.id = uid)) = some account →
      (db.classes.filter (fun k => args.classIds.contains k.id)).isEmpty = true →
      validate ctx args db = .error (.badRequest "invalid classIds")) ∧
    (∀ uid student account, ctx.userId = some uid →
      db.students.find? (fun s => decide (s.id = args.studentId ∧ s.parentId = uid))
        = some student →
      db.accounts.find? (fun a => decide (a.id = uid)) = some account →
      (db.classes.filter (fun k => args.classIds.contains k.id)).isEmpty = false →
      args.credit > 0 → args.credit > balanceOf db uid →
      validate ctx args db = .error (.badRequest "you do not have enough credit")) := by
  refine ⟨?_, ?_, ?_, ?_, ?_⟩
  · intro e hv
    exact enrollClass_of_validate_error hv
  · intro h
    exact validate_unauthorized h
  · intro uid h hs
    exact validate_student_missing h hs
  · intro uid student account h hs ha he
    exact validate_no_classes h hs ha he
  · intro uid student account h hs ha he hc1 hc2
    exact validate_insufficient_credit h hs ha he ⟨hc1, hc2⟩

/-- Witness for C6: an unauthenticated request is rejected with
`Unauthorized` and touches nothing. -/
theorem C6_witness :
    enrollClass envOK ctxNone argsBase baseDB
      = { result := .error (.unauthorized "You must login first"),
          db := baseDB, events := [], saleLog := [] } :=
  (C6_validation_before_tx envOK ctxNone argsBase baseDB).1
    (.unauthorized "You must login first")
    ((C6_validation_before_tx envOK ctxNone argsBase baseDB).2.1 rfl)

/-- C7: the enrollment-completed event, carrying the full created
enrollment list, is emitted only after a successful commit; no event is
emitted on an attempt that fails validation or rolls back; and a
failure during emission re-raises the error but does not undo the
committed enrollment rows. -/
theorem C7_event_after_commit (env : Env) (ctx : Ctx) (args : Args) (db : DB) :
    (∀ e, validate ctx args db = .error e → (enrollClass env ctx args db).events = []) ∧
    (∀ L e log, validate ctx args db = .ok L →
      enrollTxPhase env ctx args L db = (.error e, log) →
      (enrollClass env ctx args db).events = []) ∧
    (∀ L st log, validate ctx args db = .ok L →
      enrollTxPhase env ctx args L db = (.ok st, log) →
      env.emit st.enrollments = .ok () →
      enrollClass env ctx args db
        = { result := .ok st.enrollments, db := st.pending,
            events := [st.enrollments], saleLog := log } ∧
      st.pending.enrollments = db.enrollments ++ st.enrollments) ∧
    (∀ L st log e, validate ctx args db = .ok L →
      enrollTxPhase env ctx args L db = (.ok st, log) →
      env.emit st.enrollments = .error e →
      enrollClass env ctx args db
        = { result := .error e, db := st.pending, events := [], saleLog := log } ∧
      st.pending.enrollments = db.enrollments ++ st.enrollments) := by
  refine ⟨?_, ?_, ?_, ?_⟩
  · intro e hv
    rw [enrollClass_of_validate_error hv]
  · intro L e log hv htx
    rw [enrollClass_of_tx_error hv htx]
  · intro L st log hv htx hem
    exact ⟨enrollClass_of_tx_ok_emit_ok hv htx hem,
      (enrollTxPhase_ok_enrollments htx).1⟩
  · intro L st log e hv htx hem
    exact ⟨enrollClass_of_tx_ok_emit_error hv htx hem,
      (enrollTxPhase_ok_enrollments htx).1⟩

/-- Witness for C7: a failing event bus after a successful commit keeps
the committed enrollment rows and emits no event. -/
theorem C7_witness :
    enrollClass envEmitFail ctx1 argsBase baseDB
      = { result := .error (.emitFailure "bus down"), db := dbAfter1,
          events := [], saleLog := [5000] } ∧
    dbAfter1.enrollments = baseDB.enrollments ++ [enr1] := by
  have h := (C7_event_after_commit envEmitFail ctx1 argsBase baseDB).2.2.2 loaded1
    stBase [5000] (.emitFailure "bus down") (by decide) (by decide) (by decide)
  exact ⟨h.1, h.2⟩

/-- C8: the main class has the lowest course level among the selected
classes, and the purchase is a bundle exactly when more than one class
is selected and `wholeSeries` is false. -/
theorem C8_main_and_bundle (ks : List Klass) (ws : Bool) (m : Klass)
    (hm : mainClassOf ks = some m) :
    (m ∈ ks ∧ ∀ k ∈ ks, m.course.level ≤ k.course.level) ∧
    (isBundleOf ks ws = true ↔ 1 < ks.length ∧ ws = false) := by
  constructor
  · cases ks with
    | nil => exact absurd hm (by simp [mainClassOf])
    | cons k rest =>
      have hm2 : m = rest.foldl pickLower k := by
        have h2 : some (rest.foldl pickLower k) = some m := hm
        exact (Option.some.inj h2).symm
      subst hm2
      constructor
      · rcases foldl_pickLower_mem rest k with h | h
        · rw [h]
          exact List.mem_cons_self k rest
        · exact List.mem_cons_of_mem k h
      · intro k' hk'
        obtain ⟨h1, h2⟩ := foldl_pickLower_le rest k
        rcases List.mem_cons.mp hk' with rfl | hk'
        · exact h1
        · exact h2 k' hk'
  · simp [isBundleOf, Bool.and_eq_true, decide_eq_true_eq, Bool.not_eq_true']

/-- Witness for C8: with classes of levels 2 and 1 the level-1 class is
the main class, and two classes without `wholeSeries` form a bundle. -/
theorem C8_witness :
    (klassA ∈ [klassB, klassA] ∧
      ∀ k ∈ [klassB, klassA], klassA.course.level ≤ k.course.level) ∧
    (isBundleOf [klassB, klassA] false = true ↔
      1 < ([klassB, klassA] : List Klass).length ∧ false = false) :=
  C8_main_and_bundle [klassB, klassA] false klassA (by decide)

/-- C10: a zero-or-negative requested credit skips the balance check —
validation does not consult the ledger —, never produces the
insufficient-credit error, and the credit step passes the price through
unchanged creating no ledger row. -/
theorem C10_nonpositive_credit (env : Env) (ctx : Ctx) (args : Args) (db : DB)
    (hc : args.credit ≤ 0) :
    (∀ creds, validate ctx args { db with credits := creds } = validate ctx args db) ∧
    (∀ uid st, creditStage env uid args.credit st = .ok st) ∧
    (∀ e, validate ctx args db = .error e →
      e ≠ .badRequest "you do not have enough credit") := by
  refine ⟨?_, ?_, ?_⟩
  · intro creds
    cases huid : ctx.userId with
    | none =>
      rw [@validate_unauthorized ctx args { db with credits := creds } huid,
        validate_unauthorized huid]
    | some uid =>
      cases hstu : db.students.find?
          (fun s => decide (s.id = args.studentId ∧ s.parentId = uid)) with
      | none =>
        rw [@validate_student_missing ctx args { db with credits := creds } uid huid hstu,
          validate_student_missing huid hstu]
      | some student =>
        cases hacc : db.accounts.find? (fun a => decide (a.id = uid)) with
        | none =>
          rw [@validate_account_missing ctx args { db with credits := creds } uid
              student huid hstu hacc,
            validate_account_missing huid hstu hacc]
        | some account =>
          cases hemp : (db.classes.filter (fun k => args.classIds.contains k.id)).isEmpty with
          | true =>
            rw [@validate_no_classes ctx args { db with credits := creds } uid
                student account huid hstu hacc hemp,
              validate_no_classes huid hstu hacc hemp]
          | false =>
            rw [@validate_ok_of ctx args { db with credits := creds } uid
                student account huid hstu hacc hemp (fun h => absurd h.1 (by omega)),
              validate_ok_of huid hstu hacc hemp (fun h => absurd h.1 (by omega))]
  · intro uid st
    unfold creditStage
    rw [if_neg (fun h => absurd h.2 (by omega))]
  · intro e hv
    cases huid : ctx.userId with
    | none =>
      rw [validate_unauthorized huid] at hv
      injection hv with h
      subst h
      decide
    | some uid =>
      cases hstu : db.students.find?
          (fun s => decide (s.id = args.studentId ∧ s.parentId = uid)) with
      | none =>
        rw [validate_student_missing huid hstu] at hv
        injection hv with h
        subst h
        decide
      | some student =>
        cases hacc : db.accounts.find? (fun a => decide (a.id = uid)) with
        | none =>
          rw [validate_account_missing huid hstu hacc] at hv
          injection hv with h
          subst h
          decide
        | some account =>
          cases hemp : (db.classes.filter (fun k => args.classIds.contains k.id)).isEmpty with
          | true =>
            rw [validate_no_classes huid hstu hacc hemp] at hv
            injection hv with h
            subst h
            decide
          | false =>
            rw [validate_ok_of huid hstu hacc hemp (fun h => absurd h.1 (by omega))] at hv
            exact absurd hv (by simp)

/-- Witness for C10: a request with credit −5 validates identically with
an emptied ledger, and the credit step is the identity. -/
theorem C10_witness :
    validate ctx1 argsNeg { baseDB with credits := [] } = validate ctx1 argsNeg baseDB ∧
    creditStage envOK 1 argsNeg.credit (initSt envOK argsNeg loaded1 baseDB)
      = .ok (initSt envOK argsNeg loaded1 baseDB) := by
  have h := C10_nonpositive_credit envOK ctx1 argsNeg baseDB (by decide)
  exact ⟨h.1 [], h.2.1 1 (initSt envOK argsNeg loaded1 baseDB)⟩

/-- C5: the gateway is called at most once per `enrollClass` attempt,
only for a positive remaining amount; with a remaining price of zero no
gateway call is made and no transaction record is created, while the
enrollment rows are still created. -/
theorem C5_gateway_at_most_once (env : Env) (ctx : Ctx) (args : Args) (db : DB) :
    (enrollClass env ctx args db).saleLog.length ≤ 1 ∧
    ((enrollClass env ctx args db).saleLog ≠ [] →
      ∃ p, 0 < p ∧ (enrollClass env ctx args db).saleLog = [p]) ∧
    (∀ L st log, validate ctx args db = .ok L →
      enrollTxPhase env ctx args L db = (.ok st, log) → st.price = 0 →
      log = [] ∧ st.pending.txRecords = db.txRecords ∧
      st.enrollments ≠ [] ∧
      st.pending.enrollments = db.enrollments ++ st.enrollments) := by
  refine ⟨?_, ?_, ?_⟩
  · rcases enrollClass_saleLog env ctx args db with h | ⟨p, -, h⟩ <;> rw [h] <;> simp
  · intro hne
    rcases enrollClass_saleLog env ctx args db with h | ⟨p, hp, h⟩
    · exact absurd h hne
    · exact ⟨p, hp, h⟩
  · intro L st log hv htx hp0
    obtain ⟨mk, st1, st2, st3, st4, hmain, h1, h2, h3, h4, h5⟩ := enrollTxPhase_ok_inv htx
    obtain ⟨-, ht1, -, -, -, -, -⟩ := promoStage_frame h1
    obtain ⟨-, ht2, -, -, -, -, -⟩ := creditStage_frame h2
    obtain ⟨-, ht3, -, -, -, -, -, -⟩ := referralStage_frame h3
    obtain ⟨-, -, -, ht4, -, -, -, -, -⟩ := persistStage_frame h4
    rcases chargeStage_ok_inv h5 with ⟨-, rfl, hlog⟩ |
        ⟨hpos, -, d, -, -, -, hsteq⟩
    · refine ⟨hlog, ?_, ?_, (enrollTxPhase_ok_enrollments htx).1⟩
      · rw [ht4, ht3, ht2, ht1]
        rfl
      · have hmap := (enrollTxPhase_ok_enrollments htx).2.1
        have hkne : L.klasses ≠ [] := (validate_ok_inv hv).2.2.2.2.1
        intro hnil
        have h0 : L.klasses.map (fun k => k.id) = [] := by
          rw [← hmap, hnil]
          simp
        exact hkne (List.map_eq_nil_iff.mp h0)
    · have h0 : st4.price = 0 := by
        rw [hsteq] at hp0
        exact hp0
      exact absurd h0 (by omega)

/-- Witness for C5: the zero-price scenario creates the enrollment but
no gateway call and no transaction record. -/
theorem C5_witness :
    ([] : List Int) = [] ∧ stPrice0.pending.txRecords = baseDB.txRecords ∧
    stPrice0.enrollments ≠ [] ∧
    stPrice0.pending.enrollments = baseDB.enrollments ++ stPrice0.enrollments :=
  (C5_gateway_at_most_once envPrice0 ctx1 argsBase baseDB).2.2 loaded1 stPrice0 []
    (by decide) (by decide) (by decide)

/-- C9: when at least one supplied class id resolves, validation
succeeds on the resolved classes, and a successful enrollment creates
rows exactly for the resolved classes — unresolvable class ids are
silently ignored rather than failing the request. -/
theorem C9_unresolved_ids_ignored (env : Env) (ctx : Ctx) (args : Args) (db : DB)
    (uid : Nat) (student : Student) (account : Account)
    (huid : ctx.userId = some uid)
    (hstu : db.students.find? (fun s => decide (s.id = args.studentId ∧ s.parentId = uid))
      = some student)
    (hacc : db.accounts.find? (fun a => decide (a.id = uid)) = some account)
    (hne : (db.classes.filter (fun k => args.classIds.contains k.id)).isEmpty = false)
    (hcr : ¬(args.credit > 0 ∧ args.credit > balanceOf db uid)) :
    validate ctx args db
      = .ok { uid := uid, student := student, account := account,
              klasses := db.classes.filter (fun k => args.classIds.contains k.id) } ∧
    (∀ L st log, validate ctx args db = .ok L →
      enrollTxPhase env ctx args L db = (.ok st, log) →
      st.enrollments.map (fun e => e.classId)
        = (db.classes.filter (fun k => args.classIds.contains k.id)).map (fun k => k.id) ∧
      ∀ cid, (∀ k ∈ db.classes, k.id ≠ cid) →
        ∀ e ∈ st.enrollments, e.classId ≠ cid) := by
  refine ⟨validate_ok_of huid hstu hacc hne hcr, ?_⟩
  intro L st log hv htx
  have hk : L.klasses = db.classes.filter (fun k => args.classIds.contains k.id) :=
    (validate_ok_inv hv).2.2.2.1
  have hmap := (enrollTxPhase_ok_enrollments htx).2.1
  constructor
  · rw [hmap, hk]
  · intro cid hcid e he hecid
    have hmem : e.classId ∈ st.enrollments.map (fun e => e.classId) :=
      List.mem_map_of_mem _ he
    rw [hmap, hk] at hmem
    simp only [List.mem_map] at hmem
    obtain ⟨k, hkmem, hkid⟩ := hmem
    exact hcid k (List.mem_of_mem_filter hkmem) (by rw [hkid, hecid])

/-- Witness for C9: the request with class ids [100, 999] validates,
and creates an enrollment only for class 100. -/
theorem C9_witness :
    validate ctx1 args9 baseDB
      = .ok { uid := 1, student := student1, account := acctNoRef,
              klasses := baseDB.classes.filter (fun k => args9.classIds.contains k.id) } ∧
    stBase.enrollments.map (fun e => e.classId)
      = (baseDB.classes.filter (fun k => args9.classIds.contains k.id)).map (fun k => k.id) ∧
    ∀ e ∈ stBase.enrollments, e.classId ≠ 999 := by
  have h := C9_unresolved_ids_ignored envOK ctx1 args9 baseDB 1 student1 acctNoRef
    (by decide) (by decide) (by decide) (by decide) (by decide)
  refine ⟨h.1, (h.2 loaded1 stBase [5000] (by decide) (by decide)).1, ?_⟩
  exact fun e he =>
    (h.2 loaded1 stBase [5000] (by decide) (by decide)).2 999 (by decide) e he

/-- Counterexample for C2: with a regular main course, an unpaid
account, a positive remaining price but **no** referer, the request
succeeds, the `paid` flag is still flipped, and no Referral credit is
created — so the flip does not happen "exactly when all four trigger
conditions hold". -/
theorem C2_counterexample :
    courseA.isRegular = true ∧ acctNoRef.paid = false ∧ acctNoRef.refererId = none ∧
    (enrollClass envOK ctx1 argsBase baseDB).result = .ok [enr1] ∧
    (enrollClass envOK ctx1 argsBase baseDB).db.accounts
      = [{ acctNoRef with paid := true }] ∧
    (enrollClass envOK ctx1 argsBase baseDB).db.credits.filter isReferralRow
      = baseDB.credits.filter isReferralRow := by
  refine ⟨rfl, rfl, rfl, ?_, ?_, ?_⟩ <;> decide

/-- C2 (amended): in a committed `enrollClass` run the `paid` flag is
flipped exactly when the main course is regular and the account had not
yet paid (regardless of price or referer), and the Referral-type credit
of the fixed bonus is created for the referring account exactly when
additionally the remaining price is positive and a `refererId` is
present. -/
theorem C2_paid_flip_and_referral_credit (env : Env) (ctx : Ctx) (args : Args)
    (db : DB) (L : Loaded) (st : TxSt) (log : List Int) (mainKlass : Klass)
    (hv : validate ctx args db = .ok L)
    (htx : enrollTxPhase env ctx args L db = (.ok st, log))
    (hem : env.emit st.enrollments = .ok ())
    (hmain : mainClassOf L.klasses = some mainKlass) :
    ((mainKlass.course.isRegular = true ∧ L.account.paid = false) →
      (enrollClass env ctx args db).db.accounts
        = db.accounts.map
            (fun a => if a.id = L.account.id then { a with paid := true } else a)) ∧
    (¬(mainKlass.course.isRegular = true ∧ L.account.paid = false) →
      (enrollClass env ctx args db).db.accounts = db.accounts) ∧
    ((mainKlass.course.isRegular = true ∧ L.account.paid = false ∧ 0 < st.price ∧
        L.account.refererId ≠ none) →
      ∃ i rid, L.account.refererId = some rid ∧
        (enrollClass env ctx args db).db.credits.filter isReferralRow
          = db.credits.filter isReferralRow
            ++ [{ id := i, userId := rid, cents := env.referralBonus,
                  type := CreditType.Referral }]) ∧
    (¬(mainKlass.course.isRegular = true ∧ L.account.paid = false ∧ 0 < st.price ∧
        L.account.refererId ≠ none) →
      (enrollClass env ctx args db).db.credits.filter isReferralRow
        = db.credits.filter isReferralRow) := by
  have hfinal : (enrollClass env ctx args db).db = st.pending := by
    rw [enrollClass_of_tx_ok_emit_ok hv htx hem]
  obtain ⟨hacc1, hacc2⟩ := enrollTxPhase_ok_accounts htx hmain
  obtain ⟨href1, href2⟩ := enrollTxPhase_ok_referralRows htx hmain
  rw [hfinal]
  exact ⟨hacc1, hacc2, href1, href2⟩

/-- Witness for C2: the referred-account scenario flips `paid` and
grants the 2000¢ referral bonus to the referring account. -/
theorem C2_witness :
    (enrollClass envOK ctx2 args2 refDB).db.accounts
      = refDB.accounts.map
          (fun a => if a.id = acctRef.id then { a with paid := true } else a) ∧
    (∃ i rid, acctRef.refererId = some rid ∧
      (enrollClass envOK ctx2 args2 refDB).db.credits.filter isReferralRow
        = refDB.credits.filter isReferralRow
          ++ [{ id := i, userId := rid, cents := envOK.referralBonus,
                type := CreditType.Referral }]) := by
  have h := C2_paid_flip_and_referral_credit envOK ctx2 args2 refDB loaded2 stRef
    [5000] klassA (by decide) (by decide) (by decide) (by decide)
  exact ⟨h.1 ⟨rfl, rfl⟩, h.2.2.1 ⟨rfl, rfl, by decide, by decide⟩⟩

/-- Counterexample for C3: with requested credit 5 > 0 within the
balance and computed price 0, the request succeeds but **no**
Purchase-type credit row is created, although the claim asserts one of
−min(5, 0) = 0 cents is. -/
theorem C3_counterexample :
    argsCr5.credit = 5 ∧ balanceOf baseDB 1 = 1000 ∧
    envPrice0.getTotalPriceInCents [klassA] argsCr5.wholeSeries = 0 ∧
    (enrollClass envPrice0 ctx1 argsCr5 baseDB).result = .ok [enr1] ∧
    (enrollClass envPrice0 ctx1 argsCr5 baseDB).db.credits.filter isPurchaseRow
      = [] := by
  refine ⟨rfl, by decide, rfl, ?_, ?_⟩ <;> decide

/-- C3 (amended): a request with credit above the balance fails with
`BadRequest` before any mutation; when the price `P` entering the
credit step is positive the step consumes exactly `min(C, P)`, yielding
the non-negative price `P − min(C, P)` and a Purchase-type row of
`−min(C, P)` cents inside the transaction; when `P` is zero the step is
skipped and no row is created. -/
theorem C3_credit_bound (env : Env) (ctx : Ctx) (args : Args) (db : DB) (uid : Nat) :
    ((∃ student account,
        ctx.userId = some uid ∧
        db.students.find? (fun s => decide (s.id = args.studentId ∧ s.parentId = uid))
          = some student ∧
        db.accounts.find? (fun a => decide (a.id = uid)) = some account ∧
        (db.classes.filter (fun k => args.classIds.contains k.id)).isEmpty = false) →
      0 < args.credit → balanceOf db uid < args.credit →
      enrollClass env ctx args db
        = { result := .error (.badRequest "you do not have enough credit"),
            db := db, events := [], saleLog := [] }) ∧
    (∀ st : TxSt, 0 < st.price → 0 < args.credit → env.creditCreateOk = .ok () →
      creditStage env uid args.credit st
        = .ok { st with
                pending := (addCredit st.pending
                  { id := st.pending.nextCreditId, userId := uid,
                    cents := -(min args.credit st.price), type := CreditType.Purchase }),
                price := st.price - min args.credit st.price,
                usedCredit := (some
                  { id := st.pending.nextCreditId, userId := uid,
                    cents := -(min args.credit st.price),
                    type := CreditType.Purchase }) } ∧
      0 ≤ st.price - min args.credit st.price) ∧
    (∀ st : TxSt, st.price ≤ 0 ∨ args.credit ≤ 0 →
      creditStage env uid args.credit st = .ok st) ∧
    (∀ L st log, validate ctx args db = .ok L → L.uid = uid →
      enrollTxPhase env ctx args L db = (.ok st, log) →
      env.emit st.enrollments = .ok () →
      (st.usedCredit = none →
        (enrollClass env ctx args db).db.credits.filter isPurchaseRow
          = db.credits.filter isPurchaseRow) ∧
      (∀ row, st.usedCredit = some row →
        row.userId = uid ∧ row.type = CreditType.Purchase ∧
        (∃ P, 0 < P ∧ 0 < args.credit ∧ row.cents = -(min args.credit P) ∧
          st.price = P - min args.credit P ∧ 0 ≤ st.price) ∧
        (enrollClass env ctx args db).db.credits.filter isPurchaseRow
          = db.credits.filter isPurchaseRow ++ [row])) := by
  refine ⟨?_, ?_, ?_, ?_⟩
  · rintro ⟨student, account, huid, hstu, hacc, hne⟩ hc1 hc2
    exact enrollClass_of_validate_error
      (validate_insufficient_credit huid hstu hacc hne ⟨hc1, hc2⟩)
  · intro st hp hcr hok
    constructor
    · unfold creditStage
      rw [if_pos ⟨hp, hcr⟩]
      simp only [hok]
      rfl
    · have hmr := min_le_right args.credit st.price
      omega
  · intro st hskip
    have hneg : ¬(st.price > 0 ∧ args.credit > 0) := by
      rintro ⟨h1, h2⟩
      rcases hskip with h3 | h3 <;> omega
    unfold creditStage
    rw [if_neg hneg]
  · intro L st log hv hL htx hem
    have hfinal : (enrollClass env ctx args db).db = st.pending := by
      rw [enrollClass_of_tx_ok_emit_ok hv htx hem]
    obtain ⟨hnone, hsome⟩ := enrollTxPhase_ok_purchaseRows htx
    rw [hfinal]
    refine ⟨hnone, fun row hrow => ?_⟩
    obtain ⟨hu, ht, hP, hf⟩ := hsome row hrow
    exact ⟨by rw [hu, hL], ht, hP, hf⟩

/-- Witness for C3: requesting 2000¢ against a 1000¢ balance fails
untouched, and requesting 300¢ against price 5000¢ creates the −300¢
Purchase row. -/
theorem C3_witness :
    enrollClass envOK ctx1 argsOver baseDB
      = { result := .error (.badRequest "you do not have enough credit"),
          db := baseDB, events := [], saleLog := [] } ∧
    (enrollClass envOK ctx1 argsCredit baseDB).db.credits.filter isPurchaseRow
      = baseDB.credits.filter isPurchaseRow ++ [rowCr] := by
  constructor
  · exact (C3_credit_bound envOK ctx1 argsOver baseDB 1).1
      ⟨student1, acctNoRef, rfl, by decide, by decide, by decide⟩
      (by decide) (by decide)
  · have h := (C3_credit_bound envOK ctx1 argsCredit baseDB 1).2.2.2 loaded1 stCr
      [4700] (by decide) rfl (by decide) (by decide)
    exact (h.2 rowCr (by decide)).2.2.2

/-- Counterexample for C4: with computed price 0 a supplied promotion id
that does not qualify is silently skipped — the enrollment succeeds and
the promotion table is untouched — rather than failing the request. -/
theorem C4_counterexample :
    argsBadPromo.promotionId = some 99 ∧
    envPrice0.getPromotionIfQualified 99 acctNoRef courseA = .ok none ∧
    (enrollClass envPrice0 ctx1 argsBadPromo baseDB).result = .ok [enr1] ∧
    (enrollClass envPrice0 ctx1 argsBadPromo baseDB).db.promotions
      = baseDB.promotions := by
  refine ⟨rfl, by decide, ?_, ?_⟩ <;> decide

/-- C4 (amended): when the caller supplies a promotion id **and the
computed price is positive**, a promotion that does not qualify fails
the whole enrollment with `BadRequest` (no silent skip, store
untouched); a qualifying promotion has its `counts` incremented exactly
once, and the increment persists exactly when the transaction commits. -/
theorem C4_promotion_hard_failure (env : Env) (ctx : Ctx) (args : Args) (db : DB)
    (L : Loaded) (mainKlass : Klass) (pid : Nat)
    (hv : validate ctx args db = .ok L)
    (hmain : mainClassOf L.klasses = some mainKlass)
    (hpid : args.promotionId = some pid)
    (hp0 : 0 < env.getTotalPriceInCents L.klasses args.wholeSeries) :
    (env.getPromotionIfQualified pid L.account mainKlass.course = .ok none →
      enrollClass env ctx args db
        = { result := .error (.badRequest ("promotion " ++ toString pid ++ " is not valid")),
            db := db, events := [], saleLog := [] }) ∧
    (∀ st log, enrollTxPhase env ctx args L db = (.ok st, log) →
      ∃ promo, env.getPromotionIfQualified pid L.account mainKlass.course
          = .ok (some promo) ∧
        (env.emit st.enrollments = .ok () →
          (enrollClass env ctx args db).db.promotions
            = db.promotions.map
                (fun p => if p.id = promo.id then { p with counts := p.counts + 1 } else p))) ∧
    (∀ e log, enrollTxPhase env ctx args L db = (.error e, log) →
      (enrollClass env ctx args db).db = db) := by
  refine ⟨?_, ?_, ?_⟩
  · intro hq
    exact enrollClass_of_tx_error hv (enrollTxPhase_notQualified hmain hpid hp0 hq)
  · intro st log htx
    obtain ⟨promo, hq, hap, hpr⟩ := enrollTxPhase_ok_promoCounts htx hmain hpid hp0
    refine ⟨promo, hq, fun hem => ?_⟩
    rw [enrollClass_of_tx_ok_emit_ok hv htx hem]
    exact hpr
  · intro e log htx
    rw [enrollClass_of_tx_error hv htx]

/-- Witness for C4: the qualifying promotion 50 ends with its counter
incremented from 3 to 4 in the committed store. -/
theorem C4_witness :
    (enrollClass envOK ctx1 argsPromo baseDB).db.promotions
      = baseDB.promotions.map
          (fun p => if p.id = promo1.id then { p with counts := p.counts + 1 } else p) := by
  obtain ⟨promo, hq, himp⟩ :=
    (C4_promotion_hard_failure envOK ctx1 argsPromo baseDB loaded1 klassA 50
      (by decide) (by decide) (by decide) (by decide)).2.1 stPromo [4500] (by decide)
  have h2 : envOK.getPromotionIfQualified 50 loaded1.account klassA.course
      = .ok (some promo1) := by decide
  rw [hq] at h2
  simp only [Except.ok.injEq, Option.some.injEq] at h2
  subst h2
  exact himp (by decide)

end EnrollClass
